import Mathlib

/-!
A shallow embedding of `concordia/Concordia_logic.py` (the Concordia
observability layer for deployed prediction models), together with proofs
about its persistence engine: the model registry (`add_model` / `_get_model`),
the record-ingestion pipeline (`insert_into_persistent_db` /
`_insert_df_into_db`), the query layer (`retrieve_from_persistent_db`), and
the prediction orchestrator (`_predict`).

Modelling conventions:
* MongoDB is modelled as an append-only list of (collection-name, document)
  pairs; `find` filters it in insertion order (Mongo's natural order for an
  append-only collection).
* Redis is modelled as an association list from keys to stored values.
* Python dicts are association lists `List (String × Val)`; pandas DataFrames
  are a column list plus a list of row dicts.  Column assignment with a scalar
  broadcasts, assignment with a list is positional and requires matching
  length, exactly as in pandas.
* `dill.dumps` + base64 encoding of a model is modelled as the faithful,
  invertible wrapping `Val.vblob`; `json.dumps` of an importances mapping is
  modelled as the injective wrapping `Val.vimps`.  (The spec treats the codec
  as an opaque round-tripping encode/decode pair.)
* `datetime.now()` / `datetime.utcnow()` are modelled by a logical clock in
  the state that every read advances.
* A Python `None` argument is `Val.vnull` (for identifier arguments,
  `IdArg.scalar Val.vnull`).  Exception texts are abbreviated but keep the
  identifying words of the originals.
* Prediction models are opaque callables in the source (a dill blob with
  `predict` / `predict_proba`); they are modelled as concrete lookup-table
  predictors so that "same predictions on the same inputs" is expressible.
-/

namespace Concordia

/-- A registered prediction model: an integer lookup table with a default,
standing in for the opaque model object the source pickles with dill. -/
structure MLModel where
  table : List (Int × Int)
  deflt : Int
  deriving DecidableEq, Repr

/-- Values that can appear in records, caches and query filters. -/
inductive Val where
  | vstr (s : String)
  | vint (n : Int)
  | vnull
  | vtime (t : Nat)
  /-- the base64-encoded dill blob of a model (`codecs.encode(dill.dumps(m), 'base64')`),
  modelled as a faithful invertible encoding -/
  | vblob (m : MLModel)
  /-- a stored list of feature names -/
  | vnames (ns : List String)
  /-- `json.dumps` of a feature-importances mapping, modelled as an injective encoding -/
  | vimps (im : List (String × Int))
  /-- a list-valued prediction (a per-row model output list) -/
  | vpreds (ps : List Int)
  /-- a list of class-probability pairs (`predict_proba` output) -/
  | vprobas (ps : List (Int × Int))
  deriving DecidableEq, Repr

/-- Association-list lookup (Python `dict.get` / Redis `get`). -/
def aget {α : Type} : List (String × α) → String → Option α
  | [], _ => Option.none
  | (k', v) :: rest, k => if k' = k then some v else aget rest k

/-- Association-list update (Python `d[k] = v` / Redis `set`): replaces in
place, preserving entry order, or appends if the key is new. -/
def aset {α : Type} : List (String × α) → String → α → List (String × α)
  | [], k, v => [(k, v)]
  | (k', v') :: rest, k, v =>
    if k' = k then (k, v) :: rest else (k', v') :: aset rest k v

/-- Association-list deletion (Python `del d[k]` / Redis `delete`). -/
def adel {α : Type} : List (String × α) → String → List (String × α)
  | [], _ => []
  | (k', v') :: rest, k => if k' = k then adel rest k else (k', v') :: adel rest k

/-- A Python dict payload / MongoDB document. -/
abbrev Dict := List (String × Val)

/-- A pandas DataFrame: a list of column names plus one association list per
row.  (`df.columns` is `cols`; `df.to_dict('records')` is `rows`.) -/
structure DataFrame where
  cols : List String
  rows : List Dict
  deriving DecidableEq, Repr

/-- `df[k] = v` with a scalar `v`: broadcast to every row, adding the column
if it is new. -/
def setColScalar (t : DataFrame) (k : String) (v : Val) : DataFrame :=
  { cols := if k ∈ t.cols then t.cols else t.cols ++ [k]
    rows := t.rows.map (fun r => aset r k v) }

/-- `del df[k]`: drop a column. -/
def delCol (t : DataFrame) (k : String) : DataFrame :=
  { cols := t.cols.filter (fun c => c != k)
    rows := t.rows.map (fun r => adel r k) }

/-- Payload of an ingestion operation: a flat Python dict or a DataFrame. -/
inductive Payload where
  | pdict (d : Dict)
  | pdf (t : DataFrame)
  deriving DecidableEq, Repr

/-- `obj['k'] = v`: key assignment on a dict, scalar column broadcast on a
DataFrame. -/
def Payload.setItem (o : Payload) (k : String) (v : Val) : Payload :=
  match o with
  | .pdict d => .pdict (aset d k v)
  | .pdf t => .pdf (setColScalar t k v)

/-- `del obj['k']`. -/
def Payload.delItem (o : Payload) (k : String) : Payload :=
  match o with
  | .pdict d => .pdict (adel d k)
  | .pdf t => .pdf (delCol t k)

/-- A `row_id` / `model_id` argument: a scalar value (Python `None` is
`scalar Val.vnull`) or a per-row sequence (a Python list). -/
inductive IdArg where
  | scalar (v : Val)
  | seq (vs : List Val)
  deriving DecidableEq, Repr

/-- Python exceptions raised by the embedded code. -/
inductive Err where
  | valueError (msg : String)
  | typeError (msg : String)
  | keyError (k : String)
  | indexError (msg : String)
  | attributeError (msg : String)
  | nameError (n : String)
  deriving DecidableEq, Repr

/-- `df[k] = vs` with a Python list `vs`: positional assignment; pandas raises
`ValueError` when the length does not match the number of rows. -/
def setColSeq (t : DataFrame) (k : String) (vs : List Val) : Except Err DataFrame :=
  if vs.length = t.rows.length then
    .ok { cols := if k ∈ t.cols then t.cols else t.cols ++ [k]
          rows := (t.rows.zip vs).map (fun p => aset p.1 k p.2) }
  else .error (.valueError "Length of values does not match length of index")

/-- Per-instance configuration: the `default_row_id_field` constructor
argument of the `Concordia` class. -/
structure Config where
  default_row_id_field : Option String
  deriving DecidableEq, Repr

/-- The backing stores of one `Concordia` instance: `mdb` (MongoDB) as the
append-only list of (collection, document) pairs, `rdb` (Redis) as a
key-value association list, and the logical clock backing `datetime.now()`
/ `datetime.utcnow()`. -/
structure DB where
  mongo : List (String × Dict)
  redis : List (String × Val)
  clock : Nat
  deriving DecidableEq, Repr

/-- Reading the current time advances the logical clock. -/
def DB.utcnow (db : DB) : Val × DB :=
  (.vtime db.clock, { db with clock := db.clock + 1 })

/-- Shared tail of `Concordia.check_row_id`: the scalar `row_id` has been
selected (after any list indexing); `None` falls back to the payload's value
at the configured `default_row_id_field`, a still-missing identifier raises
`ValueError`, and the resolved value is written back under `row_id`. -/
def check_row_id_resolved (c : Config) (val : Dict) (v : Val) : Except Err Dict :=
  if v = .vnull then
    match c.default_row_id_field with
    | Option.none => .error (.valueError "Missing row_id field")
    | some f =>
      match aget val f with
      | Option.none => .error (.valueError "Missing row_id field")
      | some .vnull => .error (.valueError "Missing row_id field")
      | some cv => .ok (aset val "row_id" cv)
  else .ok (aset val "row_id" v)

/-- `Concordia.check_row_id`.  When `row_id` is a list the source indexes it
with `idx`; `idx=None` (the only way it is invoked in the source) makes that
indexing a `TypeError`, and an out-of-range index an `IndexError`. -/
def check_row_id (c : Config) (val : Dict) (row_id : IdArg) (idx : Option Nat) :
    Except Err Dict :=
  match row_id with
  | .scalar v => check_row_id_resolved c val v
  | .seq vs =>
    match idx with
    | Option.none => .error (.typeError "list indices must be integers")
    | some i =>
      match vs[i]? with
      | Option.none => .error (.indexError "list index out of range")
      | some v => check_row_id_resolved c val v

/-- Shared tail of `Concordia.check_model_id`: `None` falls back to a
`model_id` field already present on the payload, a still-missing identifier
raises `ValueError`, and the resolved value is written back. -/
def check_model_id_resolved (val : Dict) (v : Val) : Except Err Dict :=
  if v = .vnull then
    match aget val "model_id" with
    | Option.none => .error (.valueError "Missing model_id field")
    | some .vnull => .error (.valueError "Missing model_id field")
    | some cv => .ok (aset val "model_id" cv)
  else .ok (aset val "model_id" v)

/-- `Concordia.check_model_id` (same list-indexing behavior as
`check_row_id`). -/
def check_model_id (val : Dict) (model_id : IdArg) (idx : Option Nat) :
    Except Err Dict :=
  match model_id with
  | .scalar v => check_model_id_resolved val v
  | .seq vs =>
    match idx with
    | Option.none => .error (.typeError "list indices must be integers")
    | some i =>
      match vs[i]? with
      | Option.none => .error (.indexError "list index out of range")
      | some v => check_model_id_resolved val v

/-- The chunked-write loop of `Concordia._insert_df_into_db`: starting at row
index `i`, repeatedly `insert_many` the slice `df.iloc[i : min(N, i+1000)]`
into collection `vt` and advance by the fixed chunk size 1000. -/
def chunkLoop (mongo : List (String × Dict)) (vt : String) (rows : List Dict)
    (i : Nat) : List (String × Dict) :=
  if i < rows.length then
    let maxIdx := min rows.length (i + 1000)
    let chunk := (rows.drop i).take (maxIdx - i)
    chunkLoop (mongo ++ chunk.map (fun r => (vt, r))) vt rows (i + 1000)
  else mongo
termination_by rows.length - i
decreasing_by simp_wf; omega

/-- The `row_id` half of the column checks of `Concordia._insert_df_into_db`:
populate an absent `row_id` column from the argument (scalar broadcast or
positional sequence); when the argument is `None`, the mere *presence* of the
configured default-row-id column suppresses the `ValueError` (the source adds
no `row_id` column in that case). -/
def resolve_row_id_col (c : Config) (df : DataFrame) (row_id : IdArg) :
    Except Err DataFrame :=
  if "row_id" ∈ df.cols then .ok df
  else
    match row_id with
    | .scalar v =>
      if v = .vnull then
        match c.default_row_id_field with
        | Option.none => .error (.valueError "Missing row_id field")
        | some f => if f ∈ df.cols then .ok df
                    else .error (.valueError "Missing row_id field")
      else .ok (setColScalar df "row_id" v)
    | .seq vs => setColSeq df "row_id" vs

/-- The `model_id` half of the column checks of `Concordia._insert_df_into_db`. -/
def resolve_model_id_col (df : DataFrame) (model_id : IdArg) :
    Except Err DataFrame :=
  if "model_id" ∈ df.cols then .ok df
  else
    match model_id with
    | .scalar v =>
      if v = .vnull then .error (.valueError "Missing model_id field")
      else .ok (setColScalar df "model_id" v)
    | .seq vs => setColSeq df "model_id" vs

/-- The body of `Concordia._insert_df_into_db` after the column checks. -/
def _insert_df_into_db (c : Config) (db : DB) (df : DataFrame) (val_type : String)
    (row_id model_id : IdArg) : Except Err Unit × DB :=
  match resolve_row_id_col c df row_id with
  | .error e => (.error e, db)
  | .ok df1 =>
    match resolve_model_id_col df1 model_id with
    | .error e => (.error e, db)
    | .ok df2 => (.ok (), { db with mongo := chunkLoop db.mongo val_type df2.rows 0 })

/-- `Concordia.insert_into_persistent_db`: copy the payload, strip the
internal `_id` / `_id_` fields, stamp `_concordia_created_at`, then either
resolve identity and `insert_one` (dict payload) or defer to
`_insert_df_into_db` (DataFrame payload).  The `np.asscalar` normalization
loop is the identity on this value model. -/
def insert_into_persistent_db (c : Config) (db : DB) (val : Payload)
    (val_type : String) (row_id model_id : IdArg) : Except Err Unit × DB :=
  let (now, db1) := db.utcnow
  match val with
  | .pdict d0 =>
    let d1 := adel (adel d0 "_id") "_id_"
    let d2 := aset d1 "_concordia_created_at" now
    match check_row_id c d2 row_id Option.none with
    | .error e => (.error e, db1)
    | .ok d3 =>
      match check_model_id d3 model_id Option.none with
      | .error e => (.error e, db1)
      | .ok d4 => (.ok (), { db1 with mongo := db1.mongo ++ [(val_type, d4)] })
  | .pdf t0 =>
    let t1 := delCol (delCol t0 "_id") "_id_"
    let t2 := setColScalar t1 "_concordia_created_at" now
    _insert_df_into_db c db1 t2 val_type row_id model_id

/-- `Concordia.retrieve_from_persistent_db`: build the Mongo query (equality
filters for any non-`None` `row_id` / `model_id`, and a `gte` bound on
`date_field`, defaulting to `_concordia_created_at`, when `min_date` is
given) and `find` it against the collection `val_type`. -/
def retrieve_from_persistent_db (db : DB) (val_type : String)
    (row_id model_id : Option Val) (min_date : Option Nat)
    (date_field : Option String) : List Dict :=
  let docMatches : Dict → Bool := fun d =>
    (match row_id with
     | Option.none => true
     | some v => decide (aget d "row_id" = some v)) &&
    (match model_id with
     | Option.none => true
     | some v => decide (aget d "model_id" = some v)) &&
    (match min_date with
     | Option.none => true
     | some t =>
       match aget d (date_field.getD "_concordia_created_at") with
       | some (.vtime t') => decide (t ≤ t')
       | _ => false)
  (db.mongo.filter (fun p => p.1 == val_type && docMatches p.2)).map Prod.snd

/-- `Concordia.make_redis_model_key`. -/
def make_redis_model_key (model_id : String) : String :=
  "_concordia_" ++ model_id ++ "_model"

/-- `dill.loads(codecs.decode(blob, 'base64'))`: decoding of a stored model
blob (the inverse of the encoding modelled by `Val.vblob`). -/
def dill_loads_decode : Val → Except Err MLModel
  | .vblob m => .ok m
  | _ => .error (.typeError "invalid model blob")

/-- `Concordia.add_model`: stringify the model and write it to the cache,
then build the `model_info` document and write it to the durable store via
`insert_into_persistent_db` (with `row_id = model_id = <the identifier>`).
The source iterates `feature_importances.items()` without a `None` guard, so
omitting `feature_importances` raises `AttributeError` *after* the cache
write and *before* the durable write. -/
def add_model (c : Config) (db : DB) (model : MLModel) (model_id : String)
    (feature_names : Option (List String))
    (feature_importances : Option (List (String × Int)))
    (description : Option String) : Except Err Unit × DB :=
  let key := make_redis_model_key model_id
  let stringified_model : Val := .vblob model
  let db1 := { db with redis := aset db.redis key stringified_model }
  match feature_importances with
  | Option.none =>
    (.error (.attributeError "NoneType object has no attribute items"), db1)
  | some fi =>
    let (now, db2) := db1.utcnow
    let mdb_doc : Dict :=
      [("val_type", .vstr "model_info"),
       ("model", stringified_model),
       ("model_id", .vstr model_id),
       ("feature_names",
         match feature_names with
         | Option.none => .vnull
         | some ns => .vnames ns),
       ("feature_importances", .vimps fi),
       ("description",
         match description with
         | Option.none => .vnull
         | some s => .vstr s),
       ("date_added", now)]
    insert_into_persistent_db c db2 (.pdict mdb_doc) "model_info"
      (.scalar (.vstr model_id)) (.scalar (.vstr model_id))

/-- `Concordia._get_model`: read-through.  Cache hit decodes and returns (the
source's `redis_result is 'None'` identity test against a string literal is
always false for stored bytes and is dropped).  On miss, query the durable
store; an empty result raises `ValueError` naming the requested id; otherwise
take field `model` of the *first* returned document, write it back to the
cache, re-read the cache and decode. -/
def _get_model (db : DB) (model_id : String) : Except Err MLModel × DB :=
  let key := make_redis_model_key model_id
  match aget db.redis key with
  | some blob => (dill_loads_decode blob, db)
  | Option.none =>
    match retrieve_from_persistent_db db "model_info" Option.none
        (some (.vstr model_id)) Option.none Option.none with
    | [] =>
      (.error (.valueError
        ("We could not find a corresponding model for model_id " ++ model_id)), db)
    | doc :: _ =>
      match aget doc "model" with
      | Option.none => (.error (.keyError "model"), db)
      | some mval =>
        let db1 := { db with redis := aset db.redis key mval }
        match aget db1.redis key with
        | Option.none => (.error (.typeError "cache read after write failed"), db1)
        | some blob2 => (dill_loads_decode blob2, db1)

/-- External cache eviction (`rdb.delete(key)` in the test environment):
removes the model's cache entry, as any Redis entry may be absent at any
time.  Not a `Concordia` method; it models the forced-eviction event the
claims quantify over. -/
def evictCache (db : DB) (model_id : String) : DB :=
  { db with redis := adel db.redis (make_redis_model_key model_id) }

/-- Sum of the integer-valued features of a flat payload: the concrete
feature summary our lookup-table models predict from. -/
def dictFeatureSum : Dict → Int
  | [] => 0
  | (_, .vint n) :: rest => n + dictFeatureSum rest
  | _ :: rest => dictFeatureSum rest

/-- The opaque model's `predict` capability on a flat payload. -/
def MLModel.predictD (m : MLModel) (d : Dict) : Int :=
  (m.table.lookup (dictFeatureSum d)).getD m.deflt

/-- The opaque model's `predict_proba` capability on a flat payload: a pair
of class scores. -/
def MLModel.probaD (m : MLModel) (d : Dict) : Int × Int :=
  (m.predictD d, 1 - m.predictD d)

/-- The row-identifier resolution step of `Concordia._predict`
(`row_id = features[self.default_row_id_field]` when no explicit identifier
was given): dict lookup (`KeyError` when absent) or whole-column selection on
a DataFrame. -/
def resolve_predict_row_id (c : Config) (features : Payload) (row_id : IdArg) :
    Except Err IdArg :=
  if row_id = .scalar .vnull then
    match c.default_row_id_field with
    | Option.none => .error (.keyError "None")
    | some f =>
      match features with
      | .pdict d =>
        match aget d f with
        | Option.none => .error (.keyError f)
        | some v => .ok (.scalar v)
      | .pdf t =>
        if f ∈ t.cols then
          .ok (.seq (t.rows.map (fun r => (aget r f).getD .vnull)))
        else .error (.keyError f)
  else .ok row_id

/-- `model.predict(features)` / `model.predict_proba(features)`: the opaque
model invocation of `Concordia._predict` (per-row on a DataFrame). -/
def compute_prediction (model : MLModel) (features : Payload) (proba : Bool) :
    Val :=
  match features with
  | .pdict d =>
    if proba then .vprobas [model.probaD d] else .vint (model.predictD d)
  | .pdf t =>
    if proba then .vprobas (t.rows.map model.probaD)
    else .vpreds (t.rows.map model.predictD)

/-- The `pred_doc` construction of `Concordia._predict`: a dict holding the
(normalized) prediction and the identity for flat features; for tabular
features, `pd.DataFrame(pred_doc)` with per-row predictions, the row
identifiers (broadcast scalar or aligned sequence; pandas raises on a length
mismatch) and the broadcast model identifier. -/
def build_pred_doc (model : MLModel) (model_id : String) (proba : Bool)
    (rid : IdArg) (features : Payload) : Except Err Payload :=
  match features with
  | .pdict d =>
    .ok (.pdict
      [("prediction", compute_prediction model (.pdict d) proba),
       ("row_id", match rid with | .scalar v => v | .seq _ => .vnull),
       ("model_id", .vstr model_id)])
  | .pdf t =>
    let preds : List Val :=
      if proba then t.rows.map (fun r => .vprobas [model.probaD r])
      else t.rows.map (fun r => .vint (model.predictD r))
    match rid with
    | .scalar v =>
      .ok (.pdf
        { cols := ["prediction", "row_id", "model_id"]
          rows := (preds.zip (List.replicate preds.length v)).map (fun p =>
            [("prediction", p.1), ("row_id", p.2),
             ("model_id", .vstr model_id)]) })
    | .seq vs =>
      if vs.length = preds.length then
        .ok (.pdf
          { cols := ["prediction", "row_id", "model_id"]
            rows := (preds.zip vs).map (fun p =>
              [("prediction", p.1), ("row_id", p.2),
               ("model_id", .vstr model_id)]) })
      else .error (.valueError "arrays must all be same length")

/-- `Concordia._predict`: the prediction orchestrator.  Copies the features
(value semantics here; aliasing is studied in the heap model below), raises
`ValueError` when both the explicit `row_id` and the configured
`default_row_id_field` are missing, then *resolves the model via
`_get_model`*, then resolves the row identifier from the default field when
needed, logs the features as `live_features`, invokes the model
(`predict_proba` when `proba`), builds the prediction document, logs it as
`live_predictions`, and returns the raw prediction.  The `np.ndarray`-to-list
output normalization is the identity on this value model. -/
def _predict (c : Config) (db : DB) (features : Payload) (model_id : String)
    (row_id : IdArg) (proba : Bool) : Except Err Val × DB :=
  if row_id = .scalar .vnull ∧ c.default_row_id_field = Option.none then
    (.error (.valueError
      "Missing row_id - pass a row_id or set a default_row_id_field"), db)
  else
    match _get_model db model_id with
    | (.error e, db1) => (.error e, db1)
    | (.ok model, db1) =>
      match resolve_predict_row_id c features row_id with
      | .error e => (.error e, db1)
      | .ok rid =>
        match insert_into_persistent_db c db1 features "live_features" rid
            (.scalar (.vstr model_id)) with
        | (.error e, db2) => (.error e, db2)
        | (.ok _, db2) =>
          match build_pred_doc model model_id proba rid features with
          | .error e => (.error e, db2)
          | .ok pred_doc =>
            match insert_into_persistent_db c db2 pred_doc "live_predictions"
                rid (.scalar (.vstr model_id)) with
            | (.error e, db3) => (.error e, db3)
            | (.ok _, db3) => (.ok (compute_prediction model features proba), db3)

/-- `Concordia.predict`. -/
def predict (c : Config) (db : DB) (model_id : String) (features : Payload)
    (row_id : IdArg) : Except Err Val × DB :=
  _predict c db features model_id row_id false

/-- `Concordia.predict_proba`. -/
def predict_proba (c : Config) (db : DB) (model_id : String) (features : Payload)
    (row_id : IdArg) : Except Err Val × DB :=
  _predict c db features model_id row_id true

/-- `Concordia.match_training_and_live`: the source's first executable
statement is `if row_id is None`, but no name `row_id` is bound anywhere in
the function (its parameter is `row_id_field`, and the `def` also lacks
`self` while reading `self.default_row_id_field`), so every invocation raises
`NameError` before any join is computed. -/
def match_training_and_live (df_train df_live : DataFrame)
    (row_id_field : Option String) : Except Err DataFrame :=
  .error (.nameError "row_id")

/-! ## Heap model of the prediction path

The pure embedding above passes payloads by value, so it cannot express the
frame property "`predict` does not mutate the caller's features object".
This section re-renders `_predict` and the ingestion functions it calls at
the level of Python's reference semantics: payload objects live on a heap of
cells, every `.copy()` allocates a fresh cell, and every mutating statement
(`val['k'] = v`, `del val['k']`, `df['k'] = v`) names the cell it writes.
The translation keeps the source's statement order; the database part is as
in the pure embedding. -/

/-- The heap: payload objects addressed by allocation index. -/
structure Heap where
  cells : List Payload
  deriving DecidableEq, Repr

/-- Allocation (`.copy()` allocates a fresh object): returns the fresh
address and the grown heap. -/
def Heap.alloc (h : Heap) (o : Payload) : Nat × Heap :=
  (h.cells.length, ⟨h.cells ++ [o]⟩)

/-- Dereference. -/
def Heap.read (h : Heap) (a : Nat) : Option Payload :=
  h.cells[a]?

/-- In-place update of the object at address `a`. -/
def Heap.write (h : Heap) (a : Nat) (o : Payload) : Heap :=
  ⟨h.cells.set a o⟩

/-- Heap-level `Concordia.insert_into_persistent_db` acting on the object at
address `a`: `val = val.copy()` allocates a fresh cell holding the same
value, and all subsequent writes (`del val['_id']`, the timestamp stamp, the
identity write-backs of `check_row_id` / `check_model_id`, and the column
assignments of `_insert_df_into_db`) target only that fresh cell.  The
database effect mirrors the pure embedding. -/
def insertIntoPersistentDbH (c : Config) (h : Heap) (db : DB) (a : Nat)
    (val_type : String) (row_id model_id : IdArg) :
    Except Err Unit × Heap × DB :=
  match h.read a with
  | Option.none => (.error (.valueError "dangling reference"), h, db)
  | some o =>
    let (a1, h1) := h.alloc o
    let h2 := h1.write a1 ((o.delItem "_id").delItem "_id_")
    let (now, db1) := db.utcnow
    let h3 := h2.write a1 (((o.delItem "_id").delItem "_id_").setItem
      "_concordia_created_at" now)
    match ((o.delItem "_id").delItem "_id_").setItem "_concordia_created_at" now with
    | .pdict d2 =>
      match check_row_id c d2 row_id Option.none with
      | .error e => (.error e, h3, db1)
      | .ok d3 =>
        let h4 := h3.write a1 (.pdict d3)
        match check_model_id d3 model_id Option.none with
        | .error e => (.error e, h4, db1)
        | .ok d4 =>
          let h5 := h4.write a1 (.pdict d4)
          (.ok (), h5, { db1 with mongo := db1.mongo ++ [(val_type, d4)] })
    | .pdf t2 =>
      match resolve_row_id_col c t2 row_id with
      | .error e => (.error e, h3, db1)
      | .ok t3 =>
        let h4 := h3.write a1 (.pdf t3)
        match resolve_model_id_col t3 model_id with
        | .error e => (.error e, h4, db1)
        | .ok t4 =>
          let h5 := h4.write a1 (.pdf t4)
          (.ok (), h5, { db1 with mongo := chunkLoop db1.mongo val_type t4.rows 0 })

/-- Heap-level `Concordia._predict` on the features object at address
`fAddr`: `features = features.copy()` rebinds the local name to a freshly
allocated copy; every later step reads that copy (whose value equals the
caller's object, which is never written again) and writes only to the copy
or to freshly built documents. -/
def predictH (c : Config) (h : Heap) (db : DB) (fAddr : Nat) (model_id : String)
    (row_id : IdArg) (proba : Bool) : Except Err Val × Heap × DB :=
  match h.read fAddr with
  | Option.none => (.error (.valueError "dangling reference"), h, db)
  | some o =>
    let (fA, h1) := h.alloc o
    if row_id = .scalar .vnull ∧ c.default_row_id_field = Option.none then
      (.error (.valueError
        "Missing row_id - pass a row_id or set a default_row_id_field"), h1, db)
    else
      match _get_model db model_id with
      | (.error e, db1) => (.error e, h1, db1)
      | (.ok model, db1) =>
        match resolve_predict_row_id c o row_id with
        | .error e => (.error e, h1, db1)
        | .ok rid =>
          match insertIntoPersistentDbH c h1 db1 fA "live_features" rid
              (.scalar (.vstr model_id)) with
          | (.error e, h2, db2) => (.error e, h2, db2)
          | (.ok _, h2, db2) =>
            match build_pred_doc model model_id proba rid o with
            | .error e => (.error e, h2, db2)
            | .ok pred_doc =>
              let (pA, h3) := h2.alloc pred_doc
              match insertIntoPersistentDbH c h3 db2 pA "live_predictions" rid
                  (.scalar (.vstr model_id)) with
              | (.error e, h4, db3) => (.error e, h4, db3)
              | (.ok _, h4, db3) =>
                (.ok (compute_prediction model o proba), h4, db3)

/-! ## Concrete fixture values used by the witness theorems -/

/-- An empty deployment state. -/
def dbEmpty : DB := ⟨[], [], 0⟩

/-- A sample model. -/
def mA : MLModel := ⟨[(3, 7)], 0⟩

/-- A second, observably different sample model. -/
def mB : MLModel := ⟨[(3, 9)], 1⟩

/-- Number of records a payload contributes per ingestion call: one for a
flat dict, one per row for a table. -/
def payloadRowCount : Payload → Nat
  | .pdict _ => 1
  | .pdf t => t.rows.length

/-! ## Lemma library -/

theorem aget_aset_self {α : Type} (d : List (String × α)) (k : String) (v : α) :
    aget (aset d k v) k = some v := by
  induction d with
  | nil => simp [aget, aset]
  | cons p rest ih =>
    by_cases h : p.1 = k
    · simp [aset, h, aget]
    · simp [aset, h, aget, ih]

theorem aget_aset_ne {α : Type} (d : List (String × α)) (k k' : String) (v : α)
    (h : k' ≠ k) : aget (aset d k v) k' = aget d k' := by
  have h' : ¬ k = k' := fun hh => h hh.symm
  induction d with
  | nil => simp [aget, aset, h']
  | cons p rest ih =>
    by_cases hp : p.1 = k
    · have hpk : ¬ p.1 = k' := by rw [hp]; exact h'
      simp [aset, hp, aget, h', hpk]
    · by_cases hp' : p.1 = k'
      · simp [aset, hp, aget, hp', h]
      · simp [aset, hp, aget, hp', ih]

theorem aget_adel_ne {α : Type} (d : List (String × α)) (k k' : String)
    (h : k' ≠ k) : aget (adel d k) k' = aget d k' := by
  have h' : ¬ k = k' := fun hh => h hh.symm
  induction d with
  | nil => simp [adel]
  | cons p rest ih =>
    by_cases hp : p.1 = k
    · have hpk : ¬ p.1 = k' := by rw [hp]; exact h'
      simp [adel, hp, aget, ih, hpk, h']
    · by_cases hp' : p.1 = k'
      · simp [adel, hp, aget, hp', h]
      · simp [adel, hp, aget, hp', ih]

theorem chunkLoop_eq_aux (vt : String) (rows : List Dict) :
    ∀ (k i : Nat) (mongo : List (String × Dict)), rows.length - i ≤ k →
      chunkLoop mongo vt rows i = mongo ++ (rows.drop i).map (fun r => (vt, r)) := by
  intro k
  induction k with
  | zero =>
    intro i mongo h
    rw [chunkLoop]
    have hi : ¬ i < rows.length := by omega
    rw [if_neg hi, List.drop_eq_nil_of_le (by omega)]
    try simp
  | succ k ih =>
    intro i mongo h
    rw [chunkLoop]
    by_cases hi : i < rows.length
    · rw [if_pos hi]
      rw [ih (i + 1000) _ (by omega)]
      rw [List.append_assoc, ← List.map_append]
      have h1 : rows.drop (i + 1000) = (rows.drop i).drop 1000 := by
        rw [List.drop_drop]
      have h2 : (rows.drop i).take (min rows.length (i + 1000) - i)
          = (rows.drop i).take 1000 := by
        by_cases hc : i + 1000 ≤ rows.length
        · congr 1
          omega
        · rw [List.take_of_length_le (by simp; omega),
            List.take_of_length_le (by simp; omega)]
      rw [h2, h1, List.take_append_drop]
    · rw [if_neg hi, List.drop_eq_nil_of_le (by omega)]
      try simp

/-- The chunked write covers exactly the rows `[i, N)`, each exactly once and
in order: chunking is invisible in the contents of the store. -/
theorem chunkLoop_eq (mongo : List (String × Dict)) (vt : String)
    (rows : List Dict) (i : Nat) :
    chunkLoop mongo vt rows i = mongo ++ (rows.drop i).map (fun r => (vt, r)) :=
  chunkLoop_eq_aux vt rows (rows.length - i) i mongo (by omega)

theorem mem_setColScalar_cols (t : DataFrame) (k a : String) (v : Val) :
    a ∈ (setColScalar t k v).cols ↔ a ∈ t.cols ∨ a = k := by
  unfold setColScalar
  by_cases hk : k ∈ t.cols
  · simp only [if_pos hk]
    constructor
    · exact Or.inl
    · rintro (hh | hh)
      · exact hh
      · exact hh ▸ hk
  · simp [if_neg hk, List.mem_append]

theorem mem_delCol_cols (t : DataFrame) (k a : String) :
    a ∈ (delCol t k).cols ↔ a ∈ t.cols ∧ a ≠ k := by
  simp [delCol, List.mem_filter, bne_iff_ne]

theorem setColScalar_rows (t : DataFrame) (k : String) (v : Val) :
    (setColScalar t k v).rows = t.rows.map (fun r => aset r k v) := rfl

theorem delCol_rows (t : DataFrame) (k : String) :
    (delCol t k).rows = t.rows.map (fun r => adel r k) := rfl

/-- `_insert_df_into_db` with a fresh table, a scalar `row_id` and a scalar
`model_id`: both identity columns are broadcast and every row is written
exactly once, in order. -/
theorem insert_df_scalar_scalar (c : Config) (db : DB) (df : DataFrame)
    (vt : String) (rid mid : Val)
    (h1 : "row_id" ∉ df.cols) (h2 : "model_id" ∉ df.cols)
    (hrid : rid ≠ .vnull) (hmid : mid ≠ .vnull) :
    _insert_df_into_db c db df vt (.scalar rid) (.scalar mid)
      = (.ok (), { db with mongo := (db.mongo ++
          df.rows.map (fun r => (vt, aset (aset r "row_id" rid) "model_id" mid))) }) := by
  have h2' : "model_id" ∉ (setColScalar df "row_id" rid).cols := by
    rw [mem_setColScalar_cols]
    rintro (hh | hh)
    · exact h2 hh
    · exact absurd hh (by decide)
  have hstep1 : resolve_row_id_col c df (.scalar rid)
      = .ok (setColScalar df "row_id" rid) := by
    simp only [resolve_row_id_col, if_neg h1, if_neg hrid]
  have hstep2 : resolve_model_id_col (setColScalar df "row_id" rid) (.scalar mid)
      = .ok (setColScalar (setColScalar df "row_id" rid) "model_id" mid) := by
    simp only [resolve_model_id_col, if_neg h2', if_neg hmid]
  unfold _insert_df_into_db
  simp [hstep1, hstep2, chunkLoop_eq, setColScalar_rows, List.map_map,
    Function.comp]

/-- `_insert_df_into_db` with a fresh table, a per-row `row_id` sequence of
matching length and a scalar `model_id`: each row receives the positionally
corresponding identifier and the broadcast model identifier. -/
theorem insert_df_seq_scalar (c : Config) (db : DB) (df : DataFrame)
    (vt : String) (ids : List Val) (mid : Val)
    (h1 : "row_id" ∉ df.cols) (h2 : "model_id" ∉ df.cols)
    (hlen : ids.length = df.rows.length) (hmid : mid ≠ .vnull) :
    _insert_df_into_db c db df vt (.seq ids) (.scalar mid)
      = (.ok (), { db with mongo := (db.mongo ++
          (df.rows.zip ids).map (fun p =>
            (vt, aset (aset p.1 "row_id" p.2) "model_id" mid))) }) := by
  have h2' : "model_id" ∉ (if ("row_id" : String) ∈ df.cols then df.cols
      else df.cols ++ ["row_id"]) := by
    rw [if_neg h1]
    intro hh
    rcases List.mem_append.mp hh with hh | hh
    · exact h2 hh
    · exact absurd (List.mem_singleton.mp hh) (by decide)
  have hstep1 : resolve_row_id_col c df (.seq ids)
      = .ok { cols := if ("row_id" : String) ∈ df.cols then df.cols
                      else df.cols ++ ["row_id"]
              rows := (df.rows.zip ids).map (fun p => aset p.1 "row_id" p.2) } := by
    simp only [resolve_row_id_col, if_neg h1, setColSeq, if_pos hlen]
  have hstep2 : resolve_model_id_col
      { cols := if ("row_id" : String) ∈ df.cols then df.cols
                else df.cols ++ ["row_id"]
        rows := (df.rows.zip ids).map (fun p => aset p.1 "row_id" p.2) }
      (.scalar mid)
      = .ok (setColScalar
          { cols := if ("row_id" : String) ∈ df.cols then df.cols
                    else df.cols ++ ["row_id"]
            rows := (df.rows.zip ids).map (fun p => aset p.1 "row_id" p.2) }
          "model_id" mid) := by
    simp only [resolve_model_id_col, if_neg h2', if_neg hmid]
  unfold _insert_df_into_db
  simp [hstep1, hstep2, chunkLoop_eq, setColScalar_rows, List.map_map,
    Function.comp]

theorem Heap.read_alloc_lt (h : Heap) (o : Payload) (x : Nat)
    (hx : x < h.cells.length) : ((h.alloc o).2).read x = h.read x := by
  simp [Heap.alloc, Heap.read, List.getElem?_append, hx]

theorem Heap.read_write_ne (h : Heap) (b x : Nat) (o : Payload)
    (hab : x ≠ b) : (h.write b o).read x = h.read x := by
  simp [Heap.write, Heap.read, List.getElem?_set_ne (Ne.symm hab)]

theorem Heap.length_write (h : Heap) (b : Nat) (o : Payload) :
    (h.write b o).cells.length = h.cells.length := by
  simp [Heap.write]

theorem Heap.length_alloc (h : Heap) (o : Payload) :
    ((h.alloc o).2).cells.length = h.cells.length + 1 := by
  simp [Heap.alloc]

theorem Heap.alloc_fst (h : Heap) (o : Payload) : (h.alloc o).1 = h.cells.length :=
  rfl

/-- Heap-level ingestion never writes to a pre-existing cell: every write of
`insertIntoPersistentDbH` targets the cell freshly allocated by
`val = val.copy()`. -/
theorem insertIntoPersistentDbH_frame (c : Config) (h : Heap) (db : DB) (a : Nat)
    (vt : String) (row_id model_id : IdArg) (x : Nat) (hx : x < h.cells.length) :
    ((insertIntoPersistentDbH c h db a vt row_id model_id).2.1).read x = h.read x := by
  have hxl : x ≠ h.cells.length := Nat.ne_of_lt hx
  unfold insertIntoPersistentDbH
  cases hro : h.read a with
  | none => simp
  | some o =>
    simp only [Heap.alloc_fst, DB.utcnow]
    cases o with
    | pdict d =>
      simp only [Payload.delItem, Payload.setItem]
      cases hc1 : check_row_id c
          (aset (adel (adel d "_id") "_id_") "_concordia_created_at"
            (Val.vtime db.clock)) row_id Option.none with
      | error e =>
        simp [hc1, Heap.read_write_ne _ _ _ _ hxl, Heap.read_alloc_lt _ _ _ hx]
      | ok d3 =>
        cases hc2 : check_model_id d3 model_id Option.none with
        | error e =>
          simp [hc1, hc2, Heap.read_write_ne _ _ _ _ hxl,
            Heap.read_alloc_lt _ _ _ hx]
        | ok d4 =>
          simp [hc1, hc2, Heap.read_write_ne _ _ _ _ hxl,
            Heap.read_alloc_lt _ _ _ hx]
    | pdf t =>
      simp only [Payload.delItem, Payload.setItem]
      cases hc1 : resolve_row_id_col c
          (setColScalar (delCol (delCol t "_id") "_id_") "_concordia_created_at"
            (Val.vtime db.clock)) row_id with
      | error e =>
        simp [hc1, Heap.read_write_ne _ _ _ _ hxl, Heap.read_alloc_lt _ _ _ hx]
      | ok t3 =>
        cases hc2 : resolve_model_id_col t3 model_id with
        | error e =>
          simp [hc1, hc2, Heap.read_write_ne _ _ _ _ hxl,
            Heap.read_alloc_lt _ _ _ hx]
        | ok t4 =>
          simp [hc1, hc2, Heap.read_write_ne _ _ _ _ hxl,
            Heap.read_alloc_lt _ _ _ hx]

/-- Heap-level ingestion never shrinks the heap. -/
theorem insertIntoPersistentDbH_len (c : Config) (h : Heap) (db : DB) (a : Nat)
    (vt : String) (row_id model_id : IdArg) :
    h.cells.length ≤ ((insertIntoPersistentDbH c h db a vt row_id model_id).2.1).cells.length := by
  unfold insertIntoPersistentDbH
  cases hro : h.read a with
  | none => simp
  | some o =>
    simp only [Heap.alloc_fst, DB.utcnow]
    cases o with
    | pdict d =>
      simp only [Payload.delItem, Payload.setItem]
      cases hc1 : check_row_id c
          (aset (adel (adel d "_id") "_id_") "_concordia_created_at"
            (Val.vtime db.clock)) row_id Option.none with
      | error e => simp [hc1, Heap.length_write, Heap.length_alloc]
      | ok d3 =>
        cases hc2 : check_model_id d3 model_id Option.none with
        | error e => simp [hc1, hc2, Heap.length_write, Heap.length_alloc]
        | ok d4 => simp [hc1, hc2, Heap.length_write, Heap.length_alloc]
    | pdf t =>
      simp only [Payload.delItem, Payload.setItem]
      cases hc1 : resolve_row_id_col c
          (setColScalar (delCol (delCol t "_id") "_id_") "_concordia_created_at"
            (Val.vtime db.clock)) row_id with
      | error e => simp [hc1, Heap.length_write, Heap.length_alloc]
      | ok t3 =>
        cases hc2 : resolve_model_id_col t3 model_id with
        | error e => simp [hc1, hc2, Heap.length_write, Heap.length_alloc]
        | ok t4 => simp [hc1, hc2, Heap.length_write, Heap.length_alloc]

/-- The heap-level prediction path never writes to a pre-existing cell: the
features copy, the ingestion copies and the prediction document are all
freshly allocated. -/
theorem predictH_frame (c : Config) (h : Heap) (db : DB) (fAddr : Nat)
    (model_id : String) (row_id : IdArg) (proba : Bool) (x : Nat)
    (hx : x < h.cells.length) :
    ((predictH c h db fAddr model_id row_id proba).2.1).read x = h.read x := by
  unfold predictH
  cases hro : h.read fAddr with
  | none => simp
  | some o =>
    have hra : ((h.alloc o).2).read x = h.read x := Heap.read_alloc_lt h o x hx
    have hx1 : x < ((h.alloc o).2).cells.length := by
      rw [Heap.length_alloc]; omega
    by_cases hguard : row_id = IdArg.scalar Val.vnull ∧
        c.default_row_id_field = Option.none
    · simp [hguard, hra]
    · simp only [if_neg hguard]
      rcases hgm : _get_model db model_id with ⟨gm, db1⟩
      cases gm with
      | error e => simp [hra]
      | ok model =>
        cases hrr : resolve_predict_row_id c o row_id with
        | error e => simp [hra]
        | ok rid =>
          rcases hins1 : insertIntoPersistentDbH c ((h.alloc o).2) db1
              ((h.alloc o).1) "live_features" rid (.scalar (.vstr model_id))
            with ⟨r1, h2, db2⟩
          have frame1 : h2.read x = h.read x := by
            have hh := insertIntoPersistentDbH_frame c ((h.alloc o).2) db1
              ((h.alloc o).1) "live_features" rid (.scalar (.vstr model_id)) x hx1
            rw [hins1] at hh
            exact hh.trans hra
          have hlen1 : ((h.alloc o).2).cells.length ≤ h2.cells.length := by
            have hh := insertIntoPersistentDbH_len c ((h.alloc o).2) db1
              ((h.alloc o).1) "live_features" rid (.scalar (.vstr model_id))
            rw [hins1] at hh
            exact hh
          cases r1 with
          | error e => simp [hins1, frame1]
          | ok u =>
            cases hbp : build_pred_doc model model_id proba rid o with
            | error e => simp [hins1, hbp, frame1]
            | ok pred_doc =>
              have hx2 : x < h2.cells.length := by
                have := Heap.length_alloc h o
                omega
              have hx3 : x < ((h2.alloc pred_doc).2).cells.length := by
                rw [Heap.length_alloc]; omega
              rcases hins2 : insertIntoPersistentDbH c ((h2.alloc pred_doc).2)
                  db2 ((h2.alloc pred_doc).1) "live_predictions" rid
                  (.scalar (.vstr model_id)) with ⟨r2, h4, db3⟩
              have frame2 : h4.read x = h.read x := by
                have hh := insertIntoPersistentDbH_frame c ((h2.alloc pred_doc).2)
                  db2 ((h2.alloc pred_doc).1) "live_predictions" rid
                  (.scalar (.vstr model_id)) x hx3
                rw [hins2] at hh
                calc h4.read x = ((h2.alloc pred_doc).2).read x := hh
                  _ = h2.read x := Heap.read_alloc_lt h2 pred_doc x hx2
                  _ = h.read x := frame1
              cases r2 with
              | error e => simp [hins1, hbp, hins2, frame2]
              | ok u2 => simp [hins1, hbp, hins2, frame2]

theorem aget_adel_self {α : Type} (d : List (String × α)) (k : String) :
    aget (adel d k) k = Option.none := by
  induction d with
  | nil => simp [adel, aget]
  | cons p rest ih =>
    by_cases hp : p.1 = k
    · simp [adel, hp, ih]
    · simp [adel, hp, aget, ih]

/-- Full characterization of a successful `add_model` call: the cache entry
and the single appended `model_info` document (with its stamped metadata,
timestamps and identity fields), two clock reads. -/
theorem add_model_ok (c : Config) (db : DB) (m : MLModel) (mid : String)
    (fn : Option (List String)) (fi : List (String × Int)) (dsc : Option String) :
    add_model c db m mid fn (some fi) dsc
      = (.ok (),
         { mongo := (db.mongo ++ [("model_info",
          [("val_type", .vstr "model_info"), ("model", .vblob m),
           ("model_id", .vstr mid),
           ("feature_names",
             match fn with | Option.none => Val.vnull | some ns => .vnames ns),
           ("feature_importances", .vimps fi),
           ("description",
             match dsc with | Option.none => Val.vnull | some s => .vstr s),
           ("date_added", .vtime db.clock),
           ("_concordia_created_at", .vtime (db.clock + 1)),
           ("row_id", .vstr mid)])]),
           redis := aset db.redis (make_redis_model_key mid) (.vblob m),
           clock := db.clock + 2 }) := rfl

/-! ## Claim theorems -/

/-- C1: after `add_model m mid` on a deployment that has no prior
`model_info` record for `mid`, `_get_model mid` returns a model functionally
equivalent to `m` (here: `m` itself, hence equal predictions on every input),
both on the cache-hit path and, after forced cache eviction, from the durable
`model_info` fallback — and in the eviction case the cache is repopulated
with the retrieved blob. -/
theorem register_then_get_roundtrip (c : Config) (db : DB) (m : MLModel)
    (mid : String) (fn : Option (List String)) (fi : List (String × Int))
    (dsc : Option String)
    (hfresh : retrieve_from_persistent_db db "model_info" Option.none
        (some (.vstr mid)) Option.none Option.none = []) :
    ((_get_model (add_model c db m mid fn (some fi) dsc).2 mid).1 = .ok m)
    ∧ ((_get_model (evictCache (add_model c db m mid fn (some fi) dsc).2 mid)
          mid).1 = .ok m)
    ∧ (aget ((_get_model (evictCache (add_model c db m mid fn (some fi) dsc).2
          mid) mid).2).redis (make_redis_model_key mid) = some (.vblob m))
    ∧ (∀ d : Dict, ∀ m' : MLModel,
        (_get_model (add_model c db m mid fn (some fi) dsc).2 mid).1 = .ok m' →
          m'.predictD d = m.predictD d) := by
  simp only [retrieve_from_persistent_db, Bool.true_and, Bool.and_true,
    List.map_eq_nil_iff] at hfresh
  have hadd := add_model_ok c db m mid fn fi dsc
  have hhit : (_get_model (add_model c db m mid fn (some fi) dsc).2 mid).1
      = .ok m := by
    rw [hadd]
    simp [_get_model, aget_aset_self, dill_loads_decode]
  have hmiss : _get_model (evictCache (add_model c db m mid fn (some fi) dsc).2
      mid) mid
      = (.ok m, { mongo := ((add_model c db m mid fn (some fi) dsc).2).mongo,
                  redis := aset (adel (aset db.redis (make_redis_model_key mid)
                      (.vblob m)) (make_redis_model_key mid))
                    (make_redis_model_key mid) (.vblob m),
                  clock := db.clock + 2 }) := by
    rw [hadd]
    simp [_get_model, evictCache, aget_adel_self, retrieve_from_persistent_db,
      List.filter_append, hfresh, aget, aget_aset_self, dill_loads_decode]
  refine ⟨hhit, ?_, ?_, ?_⟩
  · rw [hmiss]
  · rw [hmiss]
    simp [aget_aset_self]
  · intro d m' hm'
    rw [hhit] at hm'
    cases hm'
    rfl

/-- C1 witness: the round-trip at a concrete fresh deployment. -/
theorem register_then_get_roundtrip_witness :
    ((_get_model (add_model ⟨Option.none⟩ dbEmpty mA "m1" Option.none
        (some []) Option.none).2 "m1").1 = .ok mA)
    ∧ ((_get_model (evictCache (add_model ⟨Option.none⟩ dbEmpty mA "m1"
          Option.none (some []) Option.none).2 "m1") "m1").1 = .ok mA)
    ∧ (aget ((_get_model (evictCache (add_model ⟨Option.none⟩ dbEmpty mA "m1"
          Option.none (some []) Option.none).2 "m1") "m1").2).redis
        (make_redis_model_key "m1") = some (.vblob mA))
    ∧ (∀ d : Dict, ∀ m' : MLModel,
        (_get_model (add_model ⟨Option.none⟩ dbEmpty mA "m1" Option.none
          (some []) Option.none).2 "m1").1 = .ok m' →
          m'.predictD d = mA.predictD d) :=
  register_then_get_roundtrip ⟨Option.none⟩ dbEmpty mA "m1" Option.none []
    Option.none rfl

/-- C6 counterexample: register `mA` under `"m"`, re-register `mB` under the
same id, evict the cache; `_get_model` then returns the *first* registered
model `mA`, not the most recent `mB` — the durable fallback takes the first
document of an unsorted (insertion-ordered) query result. -/
theorem get_model_after_reregister_counterexample :
    ((_get_model (evictCache (add_model ⟨Option.none⟩
        (add_model ⟨Option.none⟩ dbEmpty mA "m" Option.none (some [])
          Option.none).2
        mB "m" Option.none (some []) Option.none).2 "m") "m").1 = .ok mA)
    ∧ mA ≠ mB := by
  constructor
  · rfl
  · decide

/-- C6 (amended): when the cache entry is absent, `_get_model` returns the
model of the *earliest* matching `model_info` record; in particular, after
registering `m1` and then re-registering `m2` under the same id on a
previously fresh deployment, followed by cache eviction, it returns the
originally registered `m1`. -/
theorem get_model_fallback_returns_earliest (c : Config) (db : DB)
    (m1 m2 : MLModel) (mid : String) (fn1 fn2 : Option (List String))
    (fi1 fi2 : List (String × Int)) (d1 d2 : Option String)
    (hfresh : retrieve_from_persistent_db db "model_info" Option.none
        (some (.vstr mid)) Option.none Option.none = []) :
    (_get_model (evictCache (add_model c
        (add_model c db m1 mid fn1 (some fi1) d1).2
        m2 mid fn2 (some fi2) d2).2 mid) mid).1 = .ok m1 := by
  simp only [retrieve_from_persistent_db, Bool.true_and, Bool.and_true,
    List.map_eq_nil_iff] at hfresh
  rw [add_model_ok, add_model_ok]
  simp [_get_model, evictCache, aget_adel_self, retrieve_from_persistent_db,
    List.filter_append, hfresh, aget, aget_aset_self, dill_loads_decode]

/-- C6 witness: the amended behavior at a concrete fresh deployment. -/
theorem get_model_fallback_returns_earliest_witness :
    (_get_model (evictCache (add_model ⟨Option.none⟩
        (add_model ⟨Option.none⟩ dbEmpty mA "m" Option.none (some [])
          Option.none).2
        mB "m" Option.none (some []) Option.none).2 "m") "m").1 = .ok mA :=
  get_model_fallback_returns_earliest ⟨Option.none⟩ dbEmpty mA mB "m"
    Option.none Option.none [] [] Option.none Option.none rfl

/-- C4: calling `add_model` with `feature_importances` omitted (its `None`
default) crashes with `AttributeError` (`None.items()`): the cache entry has
already been written, but no `model_info` record reaches the durable store —
the registration does not succeed as the claim (and the source's own test
suite, which passes `feature_importances=None`) expects. -/
theorem add_model_without_importances_crashes :
    add_model ⟨Option.none⟩ dbEmpty mA "id1" Option.none Option.none Option.none
      = (.error (.attributeError "NoneType object has no attribute items"),
         { mongo := [],
           redis := [(make_redis_model_key "id1", .vblob mA)],
           clock := 0 }) := rfl

/-- C2: a batch insert of an N-row table (no pre-existing identity columns,
scalar identity arguments) succeeds; the fixed 1000-row chunking writes every
row exactly once for every N, so a subsequent retrieve with the matching
identity filters returns exactly N more records than before the insert. -/
theorem insert_batch_then_retrieve_count (c : Config) (db : DB) (df : DataFrame)
    (vt : String) (rid mid : Val)
    (h1 : "row_id" ∉ df.cols) (h2 : "model_id" ∉ df.cols)
    (hrid : rid ≠ .vnull) (hmid : mid ≠ .vnull) :
    ((insert_into_persistent_db c db (.pdf df) vt (.scalar rid) (.scalar mid)).1
        = .ok ())
    ∧ (retrieve_from_persistent_db
        (insert_into_persistent_db c db (.pdf df) vt (.scalar rid)
          (.scalar mid)).2
        vt (some rid) (some mid) Option.none Option.none).length
      = (retrieve_from_persistent_db db vt (some rid) (some mid) Option.none
          Option.none).length + df.rows.length := by
  have hr2 : "row_id" ∉ (setColScalar (delCol (delCol df "_id") "_id_")
      "_concordia_created_at" (Val.vtime db.clock)).cols := by
    rw [mem_setColScalar_cols, mem_delCol_cols, mem_delCol_cols]
    rintro (⟨⟨hh, _⟩, _⟩ | hh)
    · exact h1 hh
    · exact absurd hh (by decide)
  have hm2 : "model_id" ∉ (setColScalar (delCol (delCol df "_id") "_id_")
      "_concordia_created_at" (Val.vtime db.clock)).cols := by
    rw [mem_setColScalar_cols, mem_delCol_cols, mem_delCol_cols]
    rintro (⟨⟨hh, _⟩, _⟩ | hh)
    · exact h2 hh
    · exact absurd hh (by decide)
  have hdf := insert_df_scalar_scalar c { db with clock := db.clock + 1 }
    (setColScalar (delCol (delCol df "_id") "_id_") "_concordia_created_at"
      (Val.vtime db.clock)) vt rid mid hr2 hm2 hrid hmid
  have hins : insert_into_persistent_db c db (.pdf df) vt (.scalar rid)
      (.scalar mid)
      = (.ok (),
         { mongo := (db.mongo ++ (setColScalar (delCol (delCol df "_id") "_id_")
             "_concordia_created_at" (Val.vtime db.clock)).rows.map (fun r =>
               (vt, aset (aset r "row_id" rid) "model_id" mid))),
           redis := db.redis,
           clock := db.clock + 1 }) := by
    simp only [insert_into_persistent_db, DB.utcnow]
    rw [hdf]
  rw [hins]
  refine ⟨rfl, ?_⟩
  simp only [retrieve_from_persistent_db, List.filter_append, List.map_append,
    List.length_append]
  have hall : List.filter (fun p => p.1 == vt &&
        ((match (some rid : Option Val) with
          | Option.none => true
          | some v => decide (aget p.2 "row_id" = some v)) &&
         (match (some mid : Option Val) with
          | Option.none => true
          | some v => decide (aget p.2 "model_id" = some v)) &&
         (match (Option.none : Option Nat) with
          | Option.none => true
          | some t =>
            match aget p.2 ((Option.none : Option String).getD
                "_concordia_created_at") with
            | some (Val.vtime t') => decide (t ≤ t')
            | _ => false)))
      ((setColScalar (delCol (delCol df "_id") "_id_") "_concordia_created_at"
          (Val.vtime db.clock)).rows.map (fun r =>
            (vt, aset (aset r "row_id" rid) "model_id" mid)))
      = (setColScalar (delCol (delCol df "_id") "_id_") "_concordia_created_at"
          (Val.vtime db.clock)).rows.map (fun r =>
            (vt, aset (aset r "row_id" rid) "model_id" mid)) := by
    rw [List.filter_eq_self]
    intro a ha
    rcases List.mem_map.mp ha with ⟨r, hr, rfl⟩
    simp [aget_aset_self, aget_aset_ne _ _ _ _
      (by decide : ("row_id" : String) ≠ "model_id")]
  rw [hall]
  simp [setColScalar_rows, delCol_rows]

/-- C2 witness: a concrete 3-row batch on a fresh deployment. -/
theorem insert_batch_then_retrieve_count_witness :
    ((insert_into_persistent_db ⟨Option.none⟩ dbEmpty
        (.pdf ⟨["a"], [[("a", .vint 1)], [("a", .vint 2)], [("a", .vint 3)]]⟩)
        "live_labels" (.scalar (.vint 9)) (.scalar (.vstr "m1"))).1 = .ok ())
    ∧ (retrieve_from_persistent_db
        (insert_into_persistent_db ⟨Option.none⟩ dbEmpty
          (.pdf ⟨["a"], [[("a", .vint 1)], [("a", .vint 2)], [("a", .vint 3)]]⟩)
          "live_labels" (.scalar (.vint 9)) (.scalar (.vstr "m1"))).2
        "live_labels" (some (.vint 9)) (some (.vstr "m1")) Option.none
        Option.none).length
      = (retrieve_from_persistent_db dbEmpty "live_labels" (some (.vint 9))
          (some (.vstr "m1")) Option.none Option.none).length + 3 :=
  insert_batch_then_retrieve_count ⟨Option.none⟩ dbEmpty
    ⟨["a"], [[("a", .vint 1)], [("a", .vint 2)], [("a", .vint 3)]]⟩
    "live_labels" (.vint 9) (.vstr "m1") (by decide) (by decide)
    (by decide) (by decide)

/-- C8: a batch insert of a table lacking identity columns, given a per-row
`row_id` sequence of matching length and a scalar `model_id`, writes one
record per row in which `row_id` is the positionally corresponding element of
the sequence and `model_id` is the broadcast scalar. -/
theorem insert_df_positional_identity (c : Config) (db : DB) (df : DataFrame)
    (vt : String) (ids : List Val) (mid : Val)
    (h1 : "row_id" ∉ df.cols) (h2 : "model_id" ∉ df.cols)
    (hlen : ids.length = df.rows.length) (hmid : mid ≠ .vnull) :
    ((_insert_df_into_db c db df vt (.seq ids) (.scalar mid)).1 = .ok ())
    ∧ ((_insert_df_into_db c db df vt (.seq ids) (.scalar mid)).2).mongo
      = db.mongo ++ (df.rows.zip ids).map (fun p =>
          (vt, aset (aset p.1 "row_id" p.2) "model_id" mid))
    ∧ (∀ p ∈ df.rows.zip ids,
        aget (aset (aset p.1 "row_id" p.2) "model_id" mid) "row_id" = some p.2
        ∧ aget (aset (aset p.1 "row_id" p.2) "model_id" mid) "model_id"
            = some mid) := by
  have h := insert_df_seq_scalar c db df vt ids mid h1 h2 hlen hmid
  refine ⟨by rw [h], by rw [h], ?_⟩
  intro p _
  constructor
  · rw [aget_aset_ne _ _ _ _ (by decide : ("row_id" : String) ≠ "model_id"),
      aget_aset_self]
  · rw [aget_aset_self]

/-- C8 witness: a concrete 2-row batch with distinct per-row identifiers. -/
theorem insert_df_positional_identity_witness :
    ((_insert_df_into_db ⟨Option.none⟩ dbEmpty
        ⟨["a"], [[("a", .vint 1)], [("a", .vint 2)]]⟩ "live_labels"
        (.seq [.vint 10, .vint 20]) (.scalar (.vstr "m1"))).1 = .ok ())
    ∧ ((_insert_df_into_db ⟨Option.none⟩ dbEmpty
        ⟨["a"], [[("a", .vint 1)], [("a", .vint 2)]]⟩ "live_labels"
        (.seq [.vint 10, .vint 20]) (.scalar (.vstr "m1"))).2).mongo
      = dbEmpty.mongo ++ (([[("a", Val.vint 1)], [("a", Val.vint 2)]].zip
          [Val.vint 10, Val.vint 20]).map (fun p =>
          ("live_labels", aset (aset p.1 "row_id" p.2) "model_id" (.vstr "m1"))))
    ∧ (∀ p ∈ ([[("a", Val.vint 1)], [("a", Val.vint 2)]].zip
          [Val.vint 10, Val.vint 20]),
        aget (aset (aset p.1 "row_id" p.2) "model_id" (.vstr "m1")) "row_id"
            = some p.2
        ∧ aget (aset (aset p.1 "row_id" p.2) "model_id" (.vstr "m1")) "model_id"
            = some (.vstr "m1")) :=
  insert_df_positional_identity ⟨Option.none⟩ dbEmpty
    ⟨["a"], [[("a", .vint 1)], [("a", .vint 2)]]⟩ "live_labels"
    [.vint 10, .vint 20] (.vstr "m1") (by decide) (by decide) (by decide)
    (by decide)

/-- `_get_model` never touches the durable store: only the cache (and the
clock) can change. -/
theorem _get_model_mongo (db : DB) (mid : String) :
    ((_get_model db mid).2).mongo = db.mongo := by
  unfold _get_model
  simp only []
  repeat' split
  all_goals rfl

theorem setColSeq_len (t : DataFrame) (k : String) (vs : List Val)
    (t' : DataFrame) (h : setColSeq t k vs = .ok t') :
    t'.rows.length = t.rows.length := by
  unfold setColSeq at h
  by_cases hc : vs.length = t.rows.length
  · rw [if_pos hc] at h
    injection h with h
    subst h
    simp [List.length_zip]
    omega
  · rw [if_neg hc] at h
    exact absurd h (by simp)

theorem resolve_row_id_col_len (c : Config) (df : DataFrame) (r : IdArg)
    (df' : DataFrame) (h : resolve_row_id_col c df r = .ok df') :
    df'.rows.length = df.rows.length := by
  unfold resolve_row_id_col at h
  by_cases h0 : "row_id" ∈ df.cols
  · rw [if_pos h0] at h
    injection h with h
    subst h
    rfl
  · rw [if_neg h0] at h
    cases r with
    | scalar v =>
      by_cases hv : v = Val.vnull
      · subst hv
        cases hd : c.default_row_id_field with
        | none => simp [hd] at h
        | some f =>
          by_cases hf : f ∈ df.cols
          · simp [hd, hf] at h
            subst h
            rfl
          · simp [hd, hf] at h
      · simp [hv] at h
        subst h
        simp [setColScalar]
    | seq vs => exact setColSeq_len df "row_id" vs df' h

theorem resolve_model_id_col_len (df : DataFrame) (r : IdArg) (df' : DataFrame)
    (h : resolve_model_id_col df r = .ok df') :
    df'.rows.length = df.rows.length := by
  unfold resolve_model_id_col at h
  by_cases h0 : "model_id" ∈ df.cols
  · rw [if_pos h0] at h
    injection h with h
    subst h
    rfl
  · rw [if_neg h0] at h
    cases r with
    | scalar v =>
      by_cases hv : v = Val.vnull
      · simp [hv] at h
      · simp [hv] at h
        subst h
        simp [setColScalar]
    | seq vs => exact setColSeq_len df "model_id" vs df' h

/-- A successful ingestion call appends exactly one record per payload row to
the target collection (and nothing anywhere else). -/
theorem insert_into_persistent_db_shape (c : Config) (db : DB) (val : Payload)
    (vt : String) (r m : IdArg)
    (h : (insert_into_persistent_db c db val vt r m).1 = .ok ()) :
    ∃ w : List (String × Dict),
      ((insert_into_persistent_db c db val vt r m).2).mongo = db.mongo ++ w
      ∧ w.map Prod.fst = List.replicate (payloadRowCount val) vt := by
  unfold insert_into_persistent_db at h ⊢
  simp only [DB.utcnow] at h ⊢
  cases val with
  | pdict d0 =>
    cases hc1 : check_row_id c (aset (adel (adel d0 "_id") "_id_")
        "_concordia_created_at" (Val.vtime db.clock)) r Option.none with
    | error e => simp [hc1] at h
    | ok d3 =>
      cases hc2 : check_model_id d3 m Option.none with
      | error e => simp [hc1, hc2] at h
      | ok d4 =>
        refine ⟨[(vt, d4)], ?_, ?_⟩
        · simp only [hc1, hc2]
        · simp [payloadRowCount]
  | pdf t0 =>
    unfold _insert_df_into_db at h ⊢
    cases hc1 : resolve_row_id_col c (setColScalar (delCol (delCol t0 "_id")
        "_id_") "_concordia_created_at" (Val.vtime db.clock)) r with
    | error e => simp [hc1] at h
    | ok t3 =>
      cases hc2 : resolve_model_id_col t3 m with
      | error e => simp [hc1, hc2] at h
      | ok t4 =>
        refine ⟨t4.rows.map (fun rr => (vt, rr)), ?_, ?_⟩
        · simp only [hc1, hc2]
          simp [chunkLoop_eq]
        · have hl3 := resolve_row_id_col_len c _ r t3 hc1
          have hl4 := resolve_model_id_col_len t3 m t4 hc2
          rw [List.eq_replicate_iff]
          constructor
          · simp [payloadRowCount, hl4, hl3, setColScalar, delCol]
          · intro b hb
            rw [List.map_map] at hb
            rcases List.mem_map.mp hb with ⟨rr, _, rfl⟩
            rfl

/-- The prediction document built by `_predict` has exactly as many rows as
the features payload. -/
theorem build_pred_doc_count (model : MLModel) (mid : String) (proba : Bool)
    (rid : IdArg) (features pd : Payload)
    (h : build_pred_doc model mid proba rid features = .ok pd) :
    payloadRowCount pd = payloadRowCount features := by
  cases features with
  | pdict d =>
    unfold build_pred_doc at h
    simp at h
    subst h
    rfl
  | pdf t =>
    unfold build_pred_doc at h
    cases rid with
    | scalar v =>
      simp at h
      subst h
      cases proba <;> simp [payloadRowCount, List.length_zip]
    | seq vs =>
      by_cases hc : vs.length = t.rows.length
      · cases proba <;> simp [hc] at h <;> subst h <;>
          simp [payloadRowCount, List.length_zip, hc]
      · cases proba <;> simp [hc] at h

/-- C3 (amended): the orchestrator resolves the model *before* logging
features.  Whenever model resolution fails, the prediction call writes
nothing to the durable store (in particular no `live_features` record);
whenever the call succeeds, the run appends exactly the `live_features`
record(s) of the payload followed by the `live_predictions` record(s), so
features are logged after model resolution and before the prediction is
persisted. -/
theorem predict_logs_features_after_model_resolution (c : Config) (db : DB)
    (features : Payload) (mid : String) (row_id : IdArg) (proba : Bool) :
    (((_get_model db mid).1.isOk = false) →
      ((_predict c db features mid row_id proba).2).mongo = db.mongo)
    ∧ (((_predict c db features mid row_id proba).1.isOk = true) →
       ∃ w : List (String × Dict),
         ((_predict c db features mid row_id proba).2).mongo = db.mongo ++ w
         ∧ w.map Prod.fst
           = List.replicate (payloadRowCount features) "live_features"
             ++ List.replicate (payloadRowCount features) "live_predictions") := by
  by_cases hguard : row_id = IdArg.scalar Val.vnull ∧
      c.default_row_id_field = Option.none
  · have hrun : _predict c db features mid row_id proba
        = (.error (.valueError
            "Missing row_id - pass a row_id or set a default_row_id_field"),
           db) := by
      unfold _predict
      rw [if_pos hguard]
    refine ⟨fun _ => by rw [hrun], fun hok => ?_⟩
    rw [hrun] at hok
    simp [Except.isOk, Except.toBool] at hok
  · rcases hgm : _get_model db mid with ⟨gm, db1⟩
    have hdb1 : db1.mongo = db.mongo := by
      have hh := _get_model_mongo db mid
      rw [hgm] at hh
      exact hh
    cases gm with
    | error e =>
      have hrun : _predict c db features mid row_id proba = (.error e, db1) := by
        unfold _predict
        rw [if_neg hguard, hgm]
      refine ⟨fun _ => by rw [hrun]; exact hdb1, fun hok => ?_⟩
      rw [hrun] at hok
      simp [Except.isOk, Except.toBool] at hok
    | ok model =>
      cases hrr : resolve_predict_row_id c features row_id with
      | error e2 =>
        have hrun : _predict c db features mid row_id proba
            = (.error e2, db1) := by
          unfold _predict
          simp only [if_neg hguard, hgm, hrr]
        refine ⟨fun hfail => ?_, fun hok => ?_⟩
        · simp [Except.isOk, Except.toBool] at hfail
        · rw [hrun] at hok
          simp [Except.isOk, Except.toBool] at hok
      | ok rid =>
        rcases hins1 : insert_into_persistent_db c db1 features "live_features"
            rid (.scalar (.vstr mid)) with ⟨r1, db2⟩
        cases r1 with
        | error e2 =>
          have hrun : _predict c db features mid row_id proba
              = (.error e2, db2) := by
            unfold _predict
            simp only [if_neg hguard, hgm, hrr, hins1]
          refine ⟨fun hfail => ?_, fun hok => ?_⟩
          · simp [Except.isOk, Except.toBool] at hfail
          · rw [hrun] at hok
            simp [Except.isOk, Except.toBool] at hok
        | ok u =>
          cases hbp : build_pred_doc model mid proba rid features with
          | error e2 =>
            have hrun : _predict c db features mid row_id proba
                = (.error e2, db2) := by
              unfold _predict
              simp only [if_neg hguard, hgm, hrr, hins1, hbp]
            refine ⟨fun hfail => ?_, fun hok => ?_⟩
            · simp [Except.isOk, Except.toBool] at hfail
            · rw [hrun] at hok
              simp [Except.isOk, Except.toBool] at hok
          | ok pred_doc =>
            rcases hins2 : insert_into_persistent_db c db2 pred_doc
                "live_predictions" rid (.scalar (.vstr mid)) with ⟨r2, db3⟩
            cases r2 with
            | error e2 =>
              have hrun : _predict c db features mid row_id proba
                  = (.error e2, db3) := by
                unfold _predict
                simp only [if_neg hguard, hgm, hrr, hins1, hbp, hins2]
              refine ⟨fun hfail => ?_, fun hok => ?_⟩
              · simp [Except.isOk, Except.toBool] at hfail
              · rw [hrun] at hok
                simp [Except.isOk, Except.toBool] at hok
            | ok u2 =>
              have hrun : _predict c db features mid row_id proba
                  = (.ok (compute_prediction model features proba), db3) := by
                unfold _predict
                simp only [if_neg hguard, hgm, hrr, hins1, hbp, hins2]
              refine ⟨fun hfail => ?_, fun _ => ?_⟩
              · simp [Except.isOk, Except.toBool] at hfail
              · obtain ⟨w1, hw1, hw1k⟩ := insert_into_persistent_db_shape c db1
                  features "live_features" rid (.scalar (.vstr mid))
                  (by rw [hins1])
                obtain ⟨w2, hw2, hw2k⟩ := insert_into_persistent_db_shape c db2
                  pred_doc "live_predictions" rid (.scalar (.vstr mid))
                  (by rw [hins2])
                rw [hins1] at hw1
                rw [hins2] at hw2
                refine ⟨w1 ++ w2, ?_, ?_⟩
                · rw [hrun]
                  show db3.mongo = db.mongo ++ (w1 ++ w2)
                  rw [hw2, hw1, hdb1, List.append_assoc]
                · rw [List.map_append, hw1k, hw2k,
                    build_pred_doc_count model mid proba rid features pred_doc hbp]

/-- C3 (amended) witness: on a deployment holding one registered model, a
concrete successful prediction call appends exactly its one `live_features`
record followed by its one `live_predictions` record. -/
theorem predict_logs_features_after_model_resolution_witness :
    ∃ w : List (String × Dict),
      ((_predict ⟨Option.none⟩ (add_model ⟨Option.none⟩ dbEmpty mA "m1"
          Option.none (some []) Option.none).2 (.pdict [("x", .vint 3)]) "m1"
          (.scalar (.vint 7)) false).2).mongo
        = ((add_model ⟨Option.none⟩ dbEmpty mA "m1" Option.none (some [])
            Option.none).2).mongo ++ w
      ∧ w.map Prod.fst
        = List.replicate (payloadRowCount (.pdict [("x", .vint 3)]))
            "live_features"
          ++ List.replicate (payloadRowCount (.pdict [("x", .vint 3)]))
            "live_predictions" :=
  (predict_logs_features_after_model_resolution ⟨Option.none⟩
    (add_model ⟨Option.none⟩ dbEmpty mA "m1" Option.none (some [])
      Option.none).2
    (.pdict [("x", .vint 3)]) "m1" (.scalar (.vint 7)) false).2 rfl

/-- C7: a prediction call with no explicit row identifier and no configured
default row-id field fails with the identity `ValueError` before any
database effect: the returned state is exactly the input state, so no record
of any kind (in particular no `live_features` record) is written. -/
theorem predict_missing_identity_no_io (c : Config) (db : DB)
    (features : Payload) (mid : String) (proba : Bool)
    (hc : c.default_row_id_field = Option.none) :
    _predict c db features mid (.scalar .vnull) proba
      = (.error (.valueError
          "Missing row_id - pass a row_id or set a default_row_id_field"),
         db) := by
  unfold _predict
  rw [if_pos ⟨rfl, hc⟩]

/-- C7 witness: the identity failure at a concrete instance and payload. -/
theorem predict_missing_identity_no_io_witness :
    _predict ⟨Option.none⟩ dbEmpty (.pdict [("x", .vint 3)]) "m1"
        (.scalar .vnull) false
      = (.error (.valueError
          "Missing row_id - pass a row_id or set a default_row_id_field"),
         dbEmpty) :=
  predict_missing_identity_no_io ⟨Option.none⟩ dbEmpty (.pdict [("x", .vint 3)])
    "m1" false rfl

/-- C9: on the claim's example inputs (live rows `k=1,a=10` and `k=2,a=20`,
one training row `k=1,b=100`, join key `k`), `match_training_and_live` raises
`NameError` — its body reads the unbound name `row_id` (and the `def` lacks
`self`) before any join is computed — instead of returning the left-joined
table the claim describes. -/
theorem reconcile_example_raises_name_error :
    match_training_and_live
      ⟨["k", "b"], [[("k", .vint 1), ("b", .vint 100)]]⟩
      ⟨["k", "a"], [[("k", .vint 1), ("a", .vint 10)],
                    [("k", .vint 2), ("a", .vint 20)]]⟩
      (some "k")
      = .error (.nameError "row_id") := rfl

/-- C5: with `default_row_id_field = "name"`, a batch insert of a table that
has the default column but no `row_id` column, called without a `row_id`
argument, *succeeds* and persists records that carry no `row_id` field at all
(while `model_id` is present) — the batch path checks the default column's
presence but never populates `row_id` from it, violating the identity
invariant the claim states. -/
theorem insert_df_persists_records_without_row_id :
    ((insert_into_persistent_db ⟨some "name"⟩ dbEmpty
        (.pdf ⟨["name"], [[("name", .vstr "alice")], [("name", .vstr "bob")]]⟩)
        "live_labels" (.scalar .vnull) (.scalar (.vstr "m1"))).1 = .ok ())
    ∧ ((insert_into_persistent_db ⟨some "name"⟩ dbEmpty
        (.pdf ⟨["name"], [[("name", .vstr "alice")], [("name", .vstr "bob")]]⟩)
        "live_labels" (.scalar .vnull) (.scalar (.vstr "m1"))).2).mongo.map
          (fun p => (p.1, aget p.2 "row_id", aget p.2 "model_id"))
      = [("live_labels", Option.none, some (.vstr "m1")),
         ("live_labels", Option.none, some (.vstr "m1"))] := by
  constructor
  · rfl
  · rw [show ((insert_into_persistent_db ⟨some "name"⟩ dbEmpty
        (.pdf ⟨["name"], [[("name", .vstr "alice")], [("name", .vstr "bob")]]⟩)
        "live_labels" (.scalar .vnull) (.scalar (.vstr "m1"))).2).mongo
        = chunkLoop [] "live_labels"
            [[("name", .vstr "alice"), ("_concordia_created_at", .vtime 0),
              ("model_id", .vstr "m1")],
             [("name", .vstr "bob"), ("_concordia_created_at", .vtime 0),
              ("model_id", .vstr "m1")]] 0 from rfl,
      chunkLoop_eq]
    decide

/-- C3 counterexample: on an empty deployment (no registered model), a
prediction call with an explicit row identifier fails with the
model-not-found `ValueError` and the state is unchanged — in particular no
`live_features` record has been written, contradicting the claim that the
features are logged before the model is resolved. -/
theorem predict_model_not_found_logs_nothing :
    _predict ⟨Option.none⟩ dbEmpty (.pdict [("x", .vint 3)]) "nope"
        (.scalar (.vint 1)) false
      = (.error (.valueError
          "We could not find a corresponding model for model_id nope"),
         dbEmpty) := rfl

/-- C10: a prediction call (either mode, dict or DataFrame payload) leaves
the caller's features object untouched: the resolved identifiers, the
timestamp stamp and the internal-field stripping are applied only to the
freshly allocated copies, so the heap cell the caller holds reads back
exactly its old contents. -/
theorem predict_does_not_mutate_caller_features (c : Config) (h : Heap)
    (db : DB) (fAddr : Nat) (mid : String) (rid : IdArg) (proba : Bool)
    (hx : fAddr < h.cells.length) :
    ((predictH c h db fAddr mid rid proba).2.1).read fAddr = h.read fAddr :=
  predictH_frame c h db fAddr mid rid proba fAddr hx

/-- C10 witness: a concrete one-cell heap holding a flat features dict. -/
theorem predict_does_not_mutate_caller_features_witness :
    ((predictH ⟨Option.none⟩ ⟨[Payload.pdict [("x", .vint 3)]]⟩ dbEmpty 0 "m"
        (.scalar (.vint 1)) false).2.1).read 0
      = (⟨[Payload.pdict [("x", .vint 3)]]⟩ : Heap).read 0 :=
  predict_does_not_mutate_caller_features ⟨Option.none⟩
    ⟨[Payload.pdict [("x", .vint 3)]]⟩ dbEmpty 0 "m" (.scalar (.vint 1)) false
    (by decide)

end Concordia
